import Mathlib

/-!
Verification of the TorrentMate core against its natural-language specification.

The development shallowly embeds the two decision-making modules of the
repository:

* src/mktorrent/contentanalyzer.py  (class ContentAnalyzer): content-type
  detection, title/year extraction, season/episode counting, year-range
  derivation, first-video-file lookup;
* src/torrentmate/mediainfo.py      (class MediaInfo): normalization of probed
  track records into the attribute map;
* src/mktorrent/contentgenerator.py (class ContentGenerator): torrent-title,
  NFO-report and BBCode-markup rendering.

Filesystem state is modelled as an immutable tree (FSEntry) matching the
spec's DirectoryEntry: names and extensions only.  Python dictionaries are
modelled as association lists where a later write shadows earlier ones.
Python regular-expression searches used by the analyzer are compiled by hand
into decidable scanning functions over the character list; integer parsing
(Python int()) is modelled by pyInt?, and calls that can raise are modelled
with Option (none = the exception / sys.exit path).
-/

namespace TorrentMate

/-- Python's whitespace class for str patterns, restricted to its ASCII
members (space, tab, newline, carriage return, form feed, vertical tab). -/
def pyWs (c : Char) : Bool :=
  c = ' ' || c = '\t' || c = '\n' || c = '\r' || c = '\x0b' || c = '\x0c'

/-- Python str.strip(): drop leading and trailing whitespace. -/
def pyStrip (l : List Char) : String :=
  String.mk (((l.dropWhile pyWs).reverse.dropWhile pyWs).reverse)

/-- Characters of Python str.lower() (ASCII case folding, the only case the
matched patterns and keywords exercise). -/
def lowerChars (s : String) : List Char :=
  s.toList.map Char.toLower

/-- Python str.lower(). -/
def strLower (s : String) : String :=
  String.mk (lowerChars s)

/-- Python str.upper(). -/
def strUpper (s : String) : String :=
  String.mk (s.toList.map Char.toUpper)

/-- Python str.endswith on character lists. -/
def endsWithChars (l suffix : List Char) : Bool :=
  l.drop (l.length - suffix.length) == suffix

/-- Python substring containment (needle in haystack). -/
def containsChars (hay needle : List Char) : Bool :=
  hay.tails.any (fun t => needle.isPrefixOf t)

/-- Digit list to a natural number, as Python int() reads a digit string
(leading zeros allowed). -/
def digitsToNat (l : List Char) : Nat :=
  l.foldl (fun n c => n * 10 + (c.toNat - 48)) 0

/-- Python int(s): optional surrounding whitespace, optional sign, at least
one decimal digit.  (Underscore separators are not modelled; no input of this
program contains them.)  none models the ValueError raise. -/
def pyInt? (s : String) : Option Int :=
  let l := ((s.toList.dropWhile pyWs).reverse.dropWhile pyWs).reverse
  match l with
  | [] => none
  | c :: rest =>
      if c = '-' then
        if rest ≠ [] ∧ rest.all Char.isDigit then some (-(digitsToNat rest : Int)) else none
      else if c = '+' then
        if rest ≠ [] ∧ rest.all Char.isDigit then some ((digitsToNat rest : Int)) else none
      else
        if (c :: rest).all Char.isDigit then some ((digitsToNat (c :: rest) : Int)) else none

/-- Python str.isdigit() restricted to ASCII decimal digits: nonempty and all
characters are digits. -/
def pyIsdigit (s : String) : Bool :=
  !s.isEmpty && s.toList.all Char.isDigit

/-! ## Directory model

The spec's DirectoryEntry: a read-only snapshot of a subtree, names and
extensions only.  os.listdir order is the child-list order. -/

inductive FSEntry where
  | file (name : String)
  | dir (name : String) (children : List FSEntry)

/-- The entry's own name (for the root: os.path.basename of the normalized
folder path). -/
def FSEntry.name : FSEntry → String
  | .file n => n
  | .dir n _ => n

/-- Names of the immediate subdirectories, in listing order — the
os.listdir + os.path.isdir filter used by the analyzer. -/
def FSEntry.childDirNames : FSEntry → List String
  | .file _ => []
  | .dir _ cs => cs.filterMap (fun c => match c with
      | .dir n _ => some n
      | .file _ => none)

/-- File names of a child list (non-recursive), in listing order. -/
def childFileNames (cs : List FSEntry) : List String :=
  cs.filterMap (fun c => match c with
    | .file n => some n
    | .dir _ _ => none)

mutual
/-- All file names of the subtree in os.walk order (top-down: the files of a
directory first, then each subdirectory recursively, in listing order).  This
is the exact sequence every os.walk file loop of the analyzer iterates
over. -/
def walkFiles : FSEntry → List String
  | .file _ => []
  | .dir _ cs => childFileNames cs ++ walkAll cs
/-- The walk continued over a child list. -/
def walkAll : List FSEntry → List String
  | [] => []
  | c :: rest => walkFiles c ++ walkAll rest
end

/-! ## Pattern library

Hand-compiled forms of the regular expressions in contentanalyzer.py.  All
searches there run case-insensitively (re.IGNORECASE, or explicit [sS]/[eE]
classes), so the scanners work on the lowercased character list. -/

/-- Recognized video extensions, and the case-insensitive suffix test
any(file.lower().endswith(ext) for ext in video_extensions). -/
def videoExtensions : List String := [".mkv", ".mp4", ".avi"]

def isVideoFile (name : String) : Bool :=
  videoExtensions.any (fun ext => endsWithChars (lowerChars name) ext.toList)

/-- Does the pattern [sS]\d+[eE]\d+ match at the head of the (lowercased)
character list? -/
def matchSDEAt (l : List Char) : Bool :=
  match l with
  | 's' :: rest =>
      let ds := rest.takeWhile Char.isDigit
      (match rest.dropWhile Char.isDigit with
       | 'e' :: r2 =>
           !ds.isEmpty && (match r2 with
             | c :: _ => c.isDigit
             | [] => false)
       | _ => false)
  | _ => false

/-- Does saisons?\s*\d+ (resp. seasons?\s*\d+) match at the head of the
lowercased list, for word = "saison" (resp. "season")?  The plain and
pluralized pattern variants of the source are together equivalent to the
optional-s form. -/
def matchSeasonWordAt (word : List Char) (l : List Char) : Bool :=
  word.isPrefixOf l &&
    (let r := l.drop word.length
     let r := match r with
       | 's' :: r2 => r2
       | _ => r
     match r.dropWhile pyWs with
     | c :: _ => c.isDigit
     | [] => false)

/-- Does any of the four season patterns ([sS]aison\s*\d+, [sS]eason\s*\d+,
saisons?\s*\d+, seasons?\s*\d+) match at this position? -/
def seasonMarkerAt (l : List Char) : Bool :=
  matchSeasonWordAt ("saison".toList) l || matchSeasonWordAt ("season".toList) l

/-- re.search over the whole string for the four season-folder patterns of
ContentAnalyzer._count_seasons (case-insensitive). -/
def seasonMarker (s : String) : Bool :=
  ((lowerChars s).tails).any seasonMarkerAt

/-- re.search over the whole string for the five series patterns of
ContentAnalyzer._detect_content_type: the season patterns plus
[sS]\d+[eE]\d+ (case-insensitive). -/
def seriesMarker (s : String) : Bool :=
  ((lowerChars s).tails).any (fun l => matchSDEAt l || seasonMarkerAt l)

/-- First match of re.search(r'[sS](\d+)[eE]', file): scan positions left to
right, and at the first position where s‹digits›e matches, return the
captured digit run as the season number (int of the capture). -/
def sdeSeasonAt (l : List Char) : Option Nat :=
  match l with
  | 's' :: rest =>
      let ds := rest.takeWhile Char.isDigit
      (match rest.dropWhile Char.isDigit with
       | 'e' :: _ => if ds.isEmpty then none else some (digitsToNat ds)
       | _ => none)
  | _ => none

def sdeSeason? (s : String) : Option Nat :=
  ((lowerChars s).tails).findSome? sdeSeasonAt

/-! ## Title and year extraction (ContentAnalyzer._extract_title_year)

re.search(r'(.+?)\s*\((\d{4})(?:-\d{4})?\)', name): leftmost match.  Because
.+? accepts any character, a match exists exactly when some position j ≥ 1
starts \((\d{4})(?:-\d{4})?\); the engine settles on the smallest such j,
group(1) covers everything before j minus the whitespace taken by \s*, and
group(1).strip() therefore equals the whole prefix before j, stripped.  The
scanners below implement exactly that. -/

/-- Exactly four decimal digits at the head; returns them and the rest. -/
def digits4 (l : List Char) : Option (List Char × List Char) :=
  match l with
  | a :: b :: c :: d :: r =>
      if a.isDigit && b.isDigit && c.isDigit && d.isDigit then some ([a, b, c, d], r)
      else none
  | _ => none

/-- Does \((\d{4})(?:-\d{4})?\) match at the head?  Returns the captured year
digits.  The optional -\d{4} group is greedy with backtracking: if a dash
follows the year the second year plus closing paren is required, otherwise
the paren must close immediately. -/
def parenYearAt (l : List Char) : Option (List Char) :=
  match l with
  | '(' :: r =>
      (match digits4 r with
       | some (ys, r2) =>
           (match r2 with
            | ')' :: _ => some ys
            | '-' :: r3 =>
                (match digits4 r3 with
                 | some (_, ')' :: _) => some ys
                 | _ => none)
            | _ => none)
       | none => none)
  | _ => none

/-- Scan for the first paren-year pattern position j ≥ 1 (before holds the
first j characters, reversed-free accumulation).  On success: (group(1)
stripped, year digits). -/
def extractParenScan : List Char → List Char → Option (String × String)
  | _, [] => none
  | before, c :: r =>
      match (if before.isEmpty then none else parenYearAt (c :: r)) with
      | some ys => some (pyStrip before, String.mk ys)
      | none => extractParenScan (before ++ [c]) r

/-- Does (\d{4})(?:\s|$) match at the head (four digits then whitespace or
end of string)?  Returns the year digits. -/
def spaceYearAt (l : List Char) : Option (List Char) :=
  match digits4 l with
  | some (ys, r) =>
      (match r with
       | [] => some ys
       | c :: _ => if pyWs c then some ys else none)
  | none => none

/-- Scan for re.search(r'(.+?)\s+(\d{4})(?:\s|$)', name): the leftmost digit
position k with at least one whitespace character right before it, at least
one further character before that run (k ≥ 2), four digits and a trailing
boundary.  group(1).strip() equals the prefix before k, stripped. -/
def extractSpaceYearScan : List Char → List Char → Option (String × String)
  | _, [] => none
  | before, c :: r =>
      match (if before.length ≥ 2 && (before.getLast?.map pyWs).getD false then
               spaceYearAt (c :: r)
             else none) with
      | some ys => some (pyStrip before, String.mk ys)
      | none => extractSpaceYearScan (before ++ [c]) r

/-- ContentAnalyzer._extract_title_year: paren form first, then the
space-year form, otherwise the whole folder name with an empty year. -/
def extractTitleYear (name : String) : String × String :=
  match extractParenScan [] name.toList with
  | some res => res
  | none =>
      match extractSpaceYearScan [] name.toList with
      | some res => res
      | none => (name, "")

/-! ## Content-type detection (ContentAnalyzer._detect_content_type) -/

/-- The file loop of _detect_content_type: over the os.walk file sequence,
count video files and return "serie" (encoded none) as soon as a video
file's name matches a series pattern; otherwise the final count. -/
def detectScan : List String → Nat → Option Nat
  | [], count => some count
  | f :: rest, count =>
      if isVideoFile f then
        let count := count + 1
        if seriesMarker f then none else detectScan rest count
      else detectScan rest count

/-- ContentAnalyzer._detect_content_type: root folder name, then immediate
subdirectory names, then the walk over video files, then the video count. -/
def detectContentType (root : FSEntry) : String :=
  if seriesMarker root.name then "serie"
  else if root.childDirNames.any seriesMarker then "serie"
  else
    match detectScan (walkFiles root) 0 with
    | none => "serie"
    | some episodeCount => if episodeCount > 1 then "serie" else "film"

/-! ## Episode and season counting -/

/-- ContentAnalyzer._count_episodes: video files anywhere in the subtree. -/
def countEpisodes (root : FSEntry) : Nat :=
  ((walkFiles root).filter (fun f => isVideoFile f)).length

/-- The season-folder loop of _count_seasons: each immediate subdirectory
matching some season pattern adds one (the inner break counts an item at
most once). -/
def countSeasonFoldersLoop : List String → Nat
  | [] => 0
  | item :: rest =>
      (if seasonMarker item then 1 else 0) + countSeasonFoldersLoop rest

/-- The fallback loop of _count_seasons: collect the set of distinct season
numbers parsed from [sS](\d+)[eE] in video file names (Python set modelled
as a duplicate-free accumulator list). -/
def collectSeasonNumbers : List String → List Nat → List Nat
  | [], acc => acc
  | f :: rest, acc =>
      if isVideoFile f then
        match sdeSeason? f with
        | some n => collectSeasonNumbers rest (if n ∈ acc then acc else acc.concat n)
        | none => collectSeasonNumbers rest acc
      else collectSeasonNumbers rest acc

/-- ContentAnalyzer._count_seasons: season folders first, file-token fallback
when none, floored at 1. -/
def countSeasons (root : FSEntry) : Nat :=
  let seasonCount := countSeasonFoldersLoop root.childDirNames
  let seasonCount :=
    if seasonCount = 0 then (collectSeasonNumbers (walkFiles root) []).length
    else seasonCount
  max 1 seasonCount

/-! ## Year range (ContentAnalyzer._determine_year_range) -/

/-- ContentAnalyzer._determine_year_range: "Unknown" for a falsy (empty)
year; otherwise
end = min(start + max(1, season_count // 2), current year), formatted
"<start>-<end>"; a ValueError from int() degrades to the raw year string.
The current calendar year (datetime.now().year) is passed explicitly. -/
def determineYearRange (year : String) (seasonCount : Nat) (currentYear : Int) : String :=
  if year = "" then "Unknown"
  else
    match pyInt? year with
    | some startYear =>
        let endYear := min (startYear + (max 1 (seasonCount / 2) : Nat)) currentYear
        toString startYear ++ "-" ++ toString endYear
    | none => year

/-! ## The analyzer object (ContentAnalyzer.__init__) -/

structure ContentAnalyzer where
  content_type : String
  title : String
  year : String
  episode_count : Nat
  season_count : Nat
  year_range : String
deriving Repr, DecidableEq

/-- ContentAnalyzer.__init__ on a directory snapshot: detection, extraction,
then either the series refinement or the fixed movie values (note the movie
branch stores the raw extracted year — empty when absent — as year_range). -/
def mkContentAnalyzer (root : FSEntry) (currentYear : Int) : ContentAnalyzer :=
  let ct := detectContentType root
  let ty := extractTitleYear root.name
  if ct = "serie" then
    let ec := countEpisodes root
    let sc := countSeasons root
    { content_type := ct, title := ty.1, year := ty.2,
      episode_count := ec, season_count := sc,
      year_range := determineYearRange ty.2 sc currentYear }
  else
    { content_type := ct, title := ty.1, year := ty.2,
      episode_count := 1, season_count := 1, year_range := ty.2 }

/-- ContentAnalyzer.find_first_video_file: first video file in walk order;
the empty case prints and exits the process (modelled none). -/
def findFirstVideoFile (root : FSEntry) : Option String :=
  (walkFiles root).find? (fun f => isVideoFile f)

/-- The classification stage as orchestrated by MkTorrent.__init__: build the
analyzer, then locate the first video file; when the subtree holds no
recognized video file the stage aborts (sys.exit(1) in find_first_video_file
— the spec's EmptyContentError), modelled as none. -/
def classify (root : FSEntry) (currentYear : Int) : Option ContentAnalyzer :=
  let analyzer := mkContentAnalyzer root currentYear
  match findFirstVideoFile root with
  | some _ => some analyzer
  | none => none

/-! ## Track records and the attribute map (MediaInfo)

A probed track is its kind tag plus a string-keyed record of string fields,
exactly the JSON dictionaries mediainfo emits.  The attribute map built by
MediaInfo._extract_metadata holds strings for the scalar keys and string
lists for the list-valued keys; it is modelled as an association list where a
new binding shadows any earlier one (Python dict assignment). -/

structure Track where
  type : String
  fields : List (String × String)
deriving Repr, DecidableEq

/-- track.get(key) / key-in-track lookup. -/
def Track.get? (t : Track) (k : String) : Option String :=
  (t.fields.find? (fun p => p.1 = k)).map (fun p => p.2)

/-- track.get(key, default). -/
def Track.getD (t : Track) (k d : String) : String :=
  (t.get? k).getD d

inductive AttrVal where
  | str (s : String)
  | list (l : List String)
deriving Repr, DecidableEq

/-- The attribute map under construction. -/
abbrev Info : Type := List (String × AttrVal)

/-- info[key] = value (dict assignment: shadows earlier bindings). -/
def Info.set (info : Info) (k : String) (v : AttrVal) : Info :=
  (k, v) :: info

/-- info.get(key) as an Option. -/
def Info.get? (info : Info) (k : String) : Option AttrVal :=
  (info.find? (fun p => p.1 = k)).map (fun p => p.2)

/-- info.get(key, default) for the scalar keys.  The normalizer only ever
stores strings at scalar keys, so the list branch is unreachable there; it
returns the default so the function is total. -/
def Info.getS (info : Info) (k d : String) : String :=
  match info.get? k with
  | some (.str s) => s
  | some (.list _) => d
  | none => d

/-- info.get(key, default) for the list-valued keys (same remark). -/
def Info.getL (info : Info) (k : String) (d : List String) : List String :=
  match info.get? k with
  | some (.list l) => l
  | some (.str _) => d
  | none => d

/-- info[key].append(x): in the normalizer the key always holds a list when
this runs; appending to a missing or scalar binding starts a fresh list. -/
def Info.push (info : Info) (k : String) (x : String) : Info :=
  match info.get? k with
  | some (.list l) => info.set k (.list (l ++ [x]))
  | _ => info.set k (.list [x])

/-! ## Per-kind track processing -/

/-- The source-keyword priority list of MediaInfo._process_general_track. -/
def sourceKeywords : List String :=
  ["BluRay", "HDTV", "WEB-DL", "WEBRip", "DVDRip", "BDRip", "BRRip"]

/-- Python: source.lower() in movie_name.lower() — case-insensitive
substring containment. -/
def containsKeyword (movieName keyword : String) : Bool :=
  containsChars (lowerChars movieName) (lowerChars keyword)

/-- MediaInfo._process_general_track.  Note the source scan is guarded by
the lowercase key 'movie_name' being present in the track, while the
movie_name attribute is copied from the differently-cased key 'Movie_name';
when 'movie_name' is absent no 'source' binding is written at all. -/
def processGeneralTrack (t : Track) (info : Info) : Info :=
  let info := info.set "format" (.str (t.getD "Format" "Unknown"))
  let info := info.set "duration" (.str (t.getD "Duration" "Unknown"))
  let info := info.set "overall_bitrate" (.str (t.getD "OverallBitRate" "Unknown"))
  let info := info.set "movie_name" (.str (t.getD "Movie_name" ""))
  match t.get? "movie_name" with
  | some movieName =>
      (match sourceKeywords.find? (fun s => containsKeyword movieName s) with
       | some s => info.set "source" (.str s)
       | none => info.set "source" (.str "Unknown"))
  | none => info

/-- MediaInfo._process_video_track.  int(track['Width']) / int(track['Height'])
can raise ValueError on a non-numeric field; the none result models that
propagated exception. -/
def processVideoTrack (t : Track) (info : Info) : Option Info :=
  let info := info.set "video_format" (.str (t.getD "Format" "Unknown"))
  let info := info.set "video_format_profile" (.str (t.getD "Format_Profile" "Unknown"))
  let info :=
    match t.get? "Format" with
    | some f =>
        if f = "HEVC" then info.set "video_codec" (.str "HEVC (H.265)")
        else if f = "AVC" then info.set "video_codec" (.str "AVC (H.264)")
        else info.set "video_codec" (.str f)
    | none => info
  let info := info.set "width" (.str (t.getD "Width" "Unknown"))
  let info := info.set "height" (.str (t.getD "Height" "Unknown"))
  let step :=
    match t.get? "Width", t.get? "Height" with
    | some w, some h =>
        (match pyInt? w, pyInt? h with
         | some _, some height =>
             some (if height ≥ 2160 then info.set "resolution" (.str "4K")
                   else if height ≥ 1080 then info.set "resolution" (.str "1080p")
                   else if height ≥ 720 then info.set "resolution" (.str "720p")
                   else info.set "resolution" (.str (toString height ++ "p")))
         | _, _ => none)
    | _, _ => some info
  match step with
  | some info =>
      let info := info.set "frame_rate" (.str (t.getD "FrameRate" "Unknown"))
      some (info.set "bit_depth" (.str (t.getD "BitDepth" "Unknown")))
  | none => none

/-- str.replace('channels', 'ch'): every non-overlapping occurrence, left to
right (the deep first match arm takes priority). -/
def replaceChannels : List Char → List Char
  | 'c' :: 'h' :: 'a' :: 'n' :: 'n' :: 'e' :: 'l' :: 's' :: rest =>
      'c' :: 'h' :: replaceChannels rest
  | c :: rest => c :: replaceChannels rest
  | [] => []

/-- MediaInfo._process_audio_track. -/
def processAudioTrack (t : Track) (info : Info) : Info :=
  let info :=
    if (info.get? "audio_languages").isSome then info
    else (info.set "audio_languages" (.list [])).set "audio_codecs" (.list [])
  let info :=
    match t.get? "Language" with
    | some lang => info.push "audio_languages" lang
    | none => info.push "audio_languages" "Unknown"
  let audioCodec :=
    t.getD "Format" "" ++ " " ++ String.mk (replaceChannels (t.getD "Channels" "").toList)
  info.push "audio_codecs" (pyStrip audioCodec.toList)

/-- MediaInfo._process_text_track. -/
def processTextTrack (t : Track) (info : Info) : Info :=
  let info :=
    if (info.get? "subtitle_languages").isSome then info
    else (info.set "subtitle_languages" (.list [])).set "subtitle_formats" (.list [])
  let info :=
    match t.get? "Language" with
    | some lang => info.push "subtitle_languages" lang
    | none => info.push "subtitle_languages" "Unknown"
  info.push "subtitle_formats" (t.getD "Format" "Unknown")

/-! ## Language tag post-pass and the full normalizer -/

/-- The language code table of MediaInfo._process_language_tag. -/
def languageMap : List (String × String) :=
  [("French", "FRENCH"), ("English", "ENGLISH"), ("fr", "FRENCH"),
   ("en", "ENGLISH"), ("es", "SPANISH"), ("de", "GERMAN"), ("it", "ITALIAN")]

/-- MediaInfo._process_language_tag: over the set of distinct collected audio
languages — more than one gives MULTI, exactly one goes through the code
table with an uppercase fallback.  list(set)[0] on an empty set raises
IndexError (none); the normalizer never stores an empty or scalar binding at
'audio_languages', so only the list branches are reachable from it. -/
def processLanguageTag (info : Info) : Option Info :=
  match info.get? "audio_languages" with
  | some (.list langs) =>
      let uniq := langs.dedup
      if uniq.length > 1 then some (info.set "language_tag" (.str "MULTI"))
      else
        match uniq with
        | firstLang :: _ =>
            let tag := ((languageMap.find? (fun p => p.1 = firstLang)).map
              (fun p => p.2)).getD (strUpper firstLang)
            some (info.set "language_tag" (.str tag))
        | [] => none
  | some (.str _) => some info
  | none => some info

/-- One iteration of the track loop in MediaInfo._extract_metadata. -/
def processTrack (info : Info) (t : Track) : Option Info :=
  if t.type = "General" then some (processGeneralTrack t info)
  else if t.type = "Video" then processVideoTrack t info
  else if t.type = "Audio" then some (processAudioTrack t info)
  else if t.type = "Text" then some (processTextTrack t info)
  else some info

/-- MediaInfo._extract_metadata on the probe's track sequence (the spec's
normalize): fold every track into the map, then the language-tag post-pass.
none models a propagated exception. -/
def extractMetadata (tracks : List Track) : Option Info := do
  let info ← tracks.foldlM processTrack ([] : Info)
  processLanguageTag info

/-! ## Document rendering (ContentGenerator, src/mktorrent/contentgenerator.py)

The generator reads the attribute map with dict.get defaults and the
analyzer fields.  Uppercasing is Python str.upper, modelled by
strUpper (they agree on ASCII). -/

/-- video_codec.split(' ')[0]: everything before the first space character
(the empty string yields the empty first piece). -/
def splitSpaceHead (s : String) : String :=
  String.mk (s.toList.takeWhile (fun c => c ≠ ' '))

/-- ContentGenerator.generate_torrent_title. -/
def generateTorrentTitle (info : Info) (a : ContentAnalyzer) : String :=
  if a.content_type = "serie" then
    a.title ++ " (" ++ a.year_range ++ ") - Intégrale - " ++
      info.getS "language_tag" "" ++ " - " ++ info.getS "source" "" ++ " - " ++
      info.getS "resolution" "" ++ " - " ++ splitSpaceHead (info.getS "video_codec" "")
  else
    a.title ++ " (" ++ a.year ++ ") - " ++
      info.getS "language_tag" "" ++ " - " ++ info.getS "source" "" ++ " - " ++
      info.getS "resolution" "" ++ " - " ++ splitSpaceHead (info.getS "video_codec" "")

/-- The bitrate display snippet repeated in every render method:
str(int(int(b)/1000)) when the raw overall_bitrate is all digits, else "?"
(the float detour of int(b)/1000 is exact for the magnitudes involved, so it
is the floor division). -/
def bitrateStr (info : Info) : String :=
  let b := info.getS "overall_bitrate" "0"
  if pyIsdigit b then toString (digitsToNat b.toList / 1000) else "?"

/-- duration.replace('.', '', 1): the raw string with its first dot removed,
split here into the digits before and after that dot. -/
def durationParts (d : String) : List Char × List Char :=
  let l := d.toList
  (l.takeWhile (fun c => c ≠ '.'), (l.dropWhile (fun c => c ≠ '.')).drop 1)

/-- The duration display snippet repeated in every render method:
str(int(float(d)/60)) when d.replace('.','',1).isdigit(), else "?".  The
decimal value num / 10^frac divided by 60 and truncated is the floor
division below (nonnegative input guaranteed by the digit gate). -/
def durationStr (info : Info) : String :=
  let d := info.getS "duration" "0"
  let p := durationParts d
  if pyIsdigit (String.mk (p.1 ++ p.2)) then
    toString (digitsToNat (p.1 ++ p.2) / (60 * 10 ^ p.2.length))
  else "?"

/-- Python comma-space join over a list default. -/
def joinComma (l : List String) : String :=
  String.intercalate ", " l

/-- ContentGenerator._generate_serie_nfo, transcribed line by line. -/
def generateSerieNfo (info : Info) (a : ContentAnalyzer) : String :=
  let title := a.title
  let yearRange := a.year_range
  let bitrate := bitrateStr info
  let duration := durationStr info
  "░░░░░░░░░░░░░░░░░░░░░░░░░░░░░░░░░░░░░░░░░░░░░░░░░░░░░░░░░░░░░░░░░░░░░░░░░░\n" ++
  "░░░░░░░░░░░░░░░░░░░░░░ " ++ strUpper title ++ " (" ++ yearRange ++ ") ░░░░░░░░░░░░░░░░░░░░░░░░░\n" ++
  "░░░░░░░░░░░░░░░░░░░░░░░░░░░░░░░░░░░░░░░░░░░░░░░░░░░░░░░░░░░░░░░░░░░░░░░░░░\n" ++
  "\n" ++
  "▓ INFORMATIONS GÉNÉRALES\n" ++
  " ▪ Titre.............: " ++ title ++ "\n" ++
  " ▪ Année.............: " ++ yearRange ++ "\n" ++
  " ▪ Genres............: À compléter\n" ++
  " ▪ Créateurs.........: À compléter\n" ++
  " ▪ Acteurs principaux.: À compléter\n" ++
  " ▪ Saisons...........: " ++ toString a.season_count ++ " saison" ++
    (if a.season_count > 1 then "s" else "") ++ " (" ++ toString a.episode_count ++
    " épisode" ++ (if a.episode_count > 1 then "s" else "") ++ ")\n" ++
  " ▪ Langue............: " ++ info.getS "language_tag" "Unknown" ++ "\n" ++
  "\n" ++
  "▓ INFORMATIONS TECHNIQUES\n" ++
  " ▪ Format............: " ++ info.getS "format" "Unknown" ++ "\n" ++
  " ▪ Durée moyenne.....: ~" ++ duration ++ " minutes par épisode\n" ++
  " ▪ Source............: " ++ info.getS "source" "Unknown" ++ "\n" ++
  " ▪ Résolution........: " ++ info.getS "resolution" "Unknown" ++ " (" ++
    info.getS "width" "Unknown" ++ "x" ++ info.getS "height" "Unknown" ++ ")\n" ++
  " ▪ Codec Vidéo.......: " ++ info.getS "video_codec" "Unknown" ++ "\n" ++
  " ▪ Bitrate Vidéo.....: ~" ++ bitrate ++ " kb/s\n" ++
  " ▪ Codec Audio.......: " ++ joinComma (info.getL "audio_codecs" ["Unknown"]) ++ "\n" ++
  " ▪ Sous-titres.......: " ++ joinComma (info.getL "subtitle_languages" ["None"]) ++ "\n" ++
  "\n" ++
  "▓ SYNOPSIS\n" ++
  "À compléter\n" ++
  "\n" ++
  "▓ INFORMATIONS COMPLÉMENTAIRES\n" ++
  "Ce torrent contient l\x27intégrale de la série " ++ title ++
    ", de la saison 1 à la saison " ++ toString a.season_count ++ ", en version " ++
    info.getS "language_tag" "" ++
    ". Chaque épisode est accompagné de son fichier NFO détaillé et d\x27une miniature.\n" ++
  "\n" ++
  "░░░░░░░░░░░░░░░░░░░░░░░░░░░░░░░░░░░░░░░░░░░░░░░░░░░░░░░░░░░░░░░░░░░░░░░░░░"

/-- ContentGenerator._generate_film_nfo, transcribed line by line. -/
def generateFilmNfo (info : Info) (a : ContentAnalyzer) : String :=
  let title := a.title
  let year := a.year
  let bitrate := bitrateStr info
  let duration := durationStr info
  "░░░░░░░░░░░░░░░░░░░░░░░░░░░░░░░░░░░░░░░░░░░░░░░░░░░░░░░░░░░░░░░░░░░░░░░░░░\n" ++
  "░░░░░░░░░░░░░░░░░░░░░░ " ++ strUpper title ++ " (" ++ year ++ ") ░░░░░░░░░░░░░░░░░░░░░░░░░\n" ++
  "░░░░░░░░░░░░░░░░░░░░░░░░░░░░░░░░░░░░░░░░░░░░░░░░░░░░░░░░░░░░░░░░░░░░░░░░░░\n" ++
  "\n" ++
  "▓ INFORMATIONS GÉNÉRALES\n" ++
  " ▪ Titre.............: " ++ title ++ "\n" ++
  " ▪ Année.............: " ++ year ++ "\n" ++
  " ▪ Genres............: À compléter\n" ++
  " ▪ Réalisateur.......: À compléter\n" ++
  " ▪ Acteurs principaux.: À compléter\n" ++
  " ▪ Langue............: " ++ info.getS "language_tag" "Unknown" ++ "\n" ++
  "\n" ++
  "▓ INFORMATIONS TECHNIQUES\n" ++
  " ▪ Format............: " ++ info.getS "format" "Unknown" ++ "\n" ++
  " ▪ Durée.............: " ++ duration ++ " minutes\n" ++
  " ▪ Source............: " ++ info.getS "source" "Unknown" ++ "\n" ++
  " ▪ Résolution........: " ++ info.getS "resolution" "Unknown" ++ " (" ++
    info.getS "width" "Unknown" ++ "x" ++ info.getS "height" "Unknown" ++ ")\n" ++
  " ▪ Codec Vidéo.......: " ++ info.getS "video_codec" "Unknown" ++ "\n" ++
  " ▪ Bitrate Vidéo.....: ~" ++ bitrate ++ " kb/s\n" ++
  " ▪ Codec Audio.......: " ++ joinComma (info.getL "audio_codecs" ["Unknown"]) ++ "\n" ++
  " ▪ Sous-titres.......: " ++ joinComma (info.getL "subtitle_languages" ["None"]) ++ "\n" ++
  "\n" ++
  "▓ SYNOPSIS\n" ++
  "À compléter\n" ++
  "\n" ++
  "░░░░░░░░░░░░░░░░░░░░░░░░░░░░░░░░░░░░░░░░░░░░░░░░░░░░░░░░░░░░░░░░░░░░░░░░░░"

/-- ContentGenerator._generate_serie_bbcode, transcribed line by line (it
embeds the freshly generated torrent title). -/
def generateSerieBbcode (info : Info) (a : ContentAnalyzer) : String :=
  let yearRange := a.year_range
  let torrentTitle := generateTorrentTitle info a
  let bitrate := bitrateStr info
  "[center][img=600x800]https://URL_DE_VOTRE_IMAGE/poster.jpg[/img][/center]\n" ++
  "\n" ++
  "[center][size=18][b]" ++ torrentTitle ++ "[/b][/size][/center]\n" ++
  "\n" ++
  "[b]Créateurs:[/b] À compléter\n" ++
  "[b]Acteurs principaux:[/b] À compléter\n" ++
  "[b]Genre:[/b] À compléter\n" ++
  "[b]Année de sortie:[/b] " ++ yearRange ++ "\n" ++
  "\n" ++
  "[b]Résumé:[/b]\n" ++
  "À compléter\n" ++
  "\n" ++
  "[b]Informations sur l\x27upload:[/b]\n" ++
  "[list]\n" ++
  "[*]Format: " ++ info.getS "format" "Unknown" ++ "\n" ++
  "[*]Langues: " ++ info.getS "language_tag" "Unknown" ++ " (" ++
    joinComma (info.getL "audio_languages" ["Unknown"]) ++ ")\n" ++
  "[*]Source: " ++ info.getS "source" "Unknown" ++ "\n" ++
  "[*]Résolution: " ++ info.getS "resolution" "Unknown" ++ " (" ++
    info.getS "width" "Unknown" ++ "x" ++ info.getS "height" "Unknown" ++ ")\n" ++
  "[*]Codec vidéo: " ++ info.getS "video_codec" "Unknown" ++ "\n" ++
  "[*]Bitrate vidéo: ~" ++ bitrate ++ " kb/s\n" ++
  "[*]Codec audio: " ++ joinComma (info.getL "audio_codecs" ["Unknown"]) ++ "\n" ++
  "[*]Sous-titres: " ++ joinComma (info.getL "subtitle_languages" ["None"]) ++ "\n" ++
  "[*]Nombre d\x27épisodes: " ++ toString a.episode_count ++ "\n" ++
  "[*]Nombre de saisons: " ++ toString a.season_count ++ "\n" ++
  "[/list]\n" ++
  "\n" ++
  "[center][img=700x175]https://URL_DE_VOTRE_IMAGE/banner.jpg[/img][/center]\n" ++
  "\n" ++
  "[center][img]https://URL_DE_VOTRE_IMAGE/fanart.jpg[/img][/center]"

/-- ContentGenerator._generate_film_bbcode, transcribed line by line. -/
def generateFilmBbcode (info : Info) (a : ContentAnalyzer) : String :=
  let year := a.year
  let torrentTitle := generateTorrentTitle info a
  let bitrate := bitrateStr info
  let duration := durationStr info
  "[center][img=600x800]https://URL_DE_VOTRE_IMAGE/poster.jpg[/img][/center]\n" ++
  "\n" ++
  "[center][size=18][b]" ++ torrentTitle ++ "[/b][/size][/center]\n" ++
  "\n" ++
  "[b]Réalisateur:[/b] À compléter\n" ++
  "[b]Acteurs principaux:[/b] À compléter\n" ++
  "[b]Genre:[/b] À compléter\n" ++
  "[b]Année de sortie:[/b] " ++ year ++ "\n" ++
  "\n" ++
  "[b]Résumé:[/b]\n" ++
  "À compléter\n" ++
  "\n" ++
  "[b]Informations sur l\x27upload:[/b]\n" ++
  "[list]\n" ++
  "[*]Format: " ++ info.getS "format" "Unknown" ++ "\n" ++
  "[*]Langues: " ++ info.getS "language_tag" "Unknown" ++ " (" ++
    joinComma (info.getL "audio_languages" ["Unknown"]) ++ ")\n" ++
  "[*]Source: " ++ info.getS "source" "Unknown" ++ "\n" ++
  "[*]Résolution: " ++ info.getS "resolution" "Unknown" ++ " (" ++
    info.getS "width" "Unknown" ++ "x" ++ info.getS "height" "Unknown" ++ ")\n" ++
  "[*]Codec vidéo: " ++ info.getS "video_codec" "Unknown" ++ "\n" ++
  "[*]Bitrate vidéo: ~" ++ bitrate ++ " kb/s\n" ++
  "[*]Codec audio: " ++ joinComma (info.getL "audio_codecs" ["Unknown"]) ++ "\n" ++
  "[*]Sous-titres: " ++ joinComma (info.getL "subtitle_languages" ["None"]) ++ "\n" ++
  "[*]Durée: " ++ duration ++ " minutes\n" ++
  "[/list]\n" ++
  "\n" ++
  "[center][img]https://URL_DE_VOTRE_IMAGE/fanart.jpg[/img][/center]"

/-! ## Spec-side definitions

Definitions written from the words of the claims (not from the source), used
to compare the spec's described algorithms with the code. -/

/-- The detection procedure exactly as the claim states it: series markers in
the root folder's own name, then in every immediate subdirectory name, then
in EVERY filename in the subtree, then more than one recognized video file
implies Series, otherwise Movie. -/
def claimDetect (root : FSEntry) : String :=
  if seriesMarker root.name then "serie"
  else if root.childDirNames.any seriesMarker then "serie"
  else if (walkFiles root).any seriesMarker then "serie"
  else if 1 < (walkFiles root).countP (fun f => isVideoFile f) then "serie"
  else "film"

/-- The detection procedure with the third rule amended to scan only the
names of recognized video files. -/
def amendedDetect (root : FSEntry) : String :=
  if seriesMarker root.name then "serie"
  else if root.childDirNames.any seriesMarker then "serie"
  else if (walkFiles root).any (fun f => isVideoFile f && seriesMarker f) then "serie"
  else if 1 < (walkFiles root).countP (fun f => isVideoFile f) then "serie"
  else "film"

/-- The title format as the claim states it: the dash-joined segments
"<title> (<year or year_range>)", "Intégrale" (series only), language tag,
source, resolution, first space-delimited token of the video codec, with the
attribute map's empty-string defaults. -/
def specTorrentTitle (info : Info) (a : ContentAnalyzer) : String :=
  let headSeg := a.title ++ " (" ++
    (if a.content_type = "serie" then a.year_range else a.year) ++ ")"
  let midSegs : List String := if a.content_type = "serie" then ["Intégrale"] else []
  let tailSegs : List String :=
    [Info.getS info "language_tag" "", Info.getS info "source" "",
     Info.getS info "resolution" "", splitSpaceHead (Info.getS info "video_codec" "")]
  String.intercalate " - " (headSeg :: (midSegs ++ tailSegs))

/-- Well-formedness of a probe's track sequence: whenever a Video track
carries both Width and Height, the two fields parse as Python integers (true
of every real probe record, whose dimension fields are digit strings). -/
def videoDimsParse (tracks : List Track) : Prop :=
  ∀ t ∈ tracks, t.type = "Video" →
    ((t.get? "Width").isSome ∧ (t.get? "Height").isSome) →
      (pyInt? ((t.get? "Width").getD "")).isSome ∧
        (pyInt? ((t.get? "Height").getD "")).isSome

/-- The running invariant of the normalizer's track fold: whenever the map
binds audio_languages to a list, that list is nonempty (the binding is
created only by an audio track, which immediately appends to it). -/
def audioInv (info : Info) : Prop :=
  ∀ l, info.get? "audio_languages" = some (.list l) → l ≠ []

/-! ## Concrete demonstration inputs -/

/-- The spec's movie scenario: directory "Movie Title (1999)/movie.mkv". -/
def demoMovieDir : FSEntry := .dir "Movie Title (1999)" [.file "movie.mkv"]

/-- The spec's series scenario: "Show Name (2010-2015)" with two Saison
subdirectories of one episode each. -/
def demoSeriesDir : FSEntry :=
  .dir "Show Name (2010-2015)"
    [.dir "Saison 1" [.file "ep1.mkv"], .dir "Saison 2" [.file "ep1.mkv"]]

/-- A movie directory whose name carries no year. -/
def noYearMovieDir : FSEntry := .dir "MyMovie" [.file "movie.mkv"]

/-- A series directory dated in the future relative to the demo current
year 2025. -/
def futureYearSeriesDir : FSEntry := .dir "Show (2999) Saison 2" [.file "e1.mkv"]

/-- One video file plus a non-video file whose name carries a series
marker. -/
def markerTextDir : FSEntry := .dir "Stuff" [.file "S01E01.txt", .file "movie.mkv"]

/-- A directory with no recognized video file. -/
def noVideoDir : FSEntry := .dir "Docs" [.file "readme.txt", .dir "sub" []]

/-- A General track as mediainfo emits it, the embedded name under the
capitalized key. -/
def capitalNameTrack : Track := ⟨"General", [("Movie_name", "WEBRip 1080p")]⟩

/-- The attribute map the normalizer builds from that single track. -/
def capitalNameInfo : Info := processGeneralTrack capitalNameTrack []

/-- A General track with no fields at all. -/
def bareGeneralTrack : Track := ⟨"General", []⟩

/-- A full demonstration track sequence: General + Video + two Audio. -/
def demoTracks : List Track :=
  [⟨"General", [("Format", "Matroska"), ("Duration", "5400.000"),
     ("OverallBitRate", "5000000"), ("movie_name", "WEBRip 1080p")]⟩,
   ⟨"Video", [("Format", "HEVC"), ("Width", "1920"), ("Height", "1080")]⟩,
   ⟨"Audio", [("Language", "fr"), ("Format", "AC-3"), ("Channels", "6 channels")]⟩,
   ⟨"Audio", [("Language", "en"), ("Format", "AAC")]⟩]

/-- Audio languages map for the MULTI witness. -/
def multiLangInfo : Info := [("audio_languages", .list ["fr", "en"])]

/-- Audio languages map for the single-language witness. -/
def singleLangInfo : Info := [("audio_languages", .list ["French", "French"])]

/-- The series analyzer of the demo series directory at current year 2025. -/
def demoSeriesAnalyzer : ContentAnalyzer := mkContentAnalyzer demoSeriesDir 2025

/-- The movie analyzer of the demo movie directory at current year 2025. -/
def demoMovieAnalyzer : ContentAnalyzer := mkContentAnalyzer demoMovieDir 2025

/-! ## Supporting lemmas -/

theorem digit_not_ws (c : Char) (h : c.isDigit = true) : pyWs c = false := by
  by_contra hw
  simp only [pyWs, Bool.not_eq_false, Bool.or_eq_true, decide_eq_true_eq] at hw
  rcases hw with (((((h1 | h1) | h1) | h1) | h1) | h1) <;> subst h1 <;>
    simp [Char.isDigit] at h

theorem digit_not_minus (c : Char) (h : c.isDigit = true) : (c = '-') = False := by
  simp only [eq_iff_iff, iff_false]
  intro h1
  subst h1
  simp [Char.isDigit] at h

theorem digit_not_plus (c : Char) (h : c.isDigit = true) : (c = '+') = False := by
  simp only [eq_iff_iff, iff_false]
  intro h1
  subst h1
  simp [Char.isDigit] at h

theorem digits_strip (l : List Char) (h : l.all Char.isDigit = true) :
    ((l.dropWhile pyWs).reverse.dropWhile pyWs).reverse = l := by
  have h1 : l.dropWhile pyWs = l := by
    cases l with
    | nil => rfl
    | cons a t =>
        simp only [List.all_cons, Bool.and_eq_true] at h
        rw [List.dropWhile_cons]
        simp [digit_not_ws a h.1]
  rw [h1]
  have h2 : l.reverse.dropWhile pyWs = l.reverse := by
    cases hr : l.reverse with
    | nil => rfl
    | cons a t =>
        have ha : a ∈ l := by
          have : a ∈ l.reverse := by rw [hr]; exact List.mem_cons_self a t
          simpa using this
        have := List.all_eq_true.mp h a ha
        rw [List.dropWhile_cons]
        simp [digit_not_ws a this]
  rw [h2, List.reverse_reverse]

/-- Python int() succeeds on every nonempty all-digit string and reads its
decimal value. -/
theorem pyInt_digits (l : List Char) (hne : l ≠ []) (h : l.all Char.isDigit = true) :
    pyInt? (String.mk l) = some ((digitsToNat l : Int)) := by
  have htl : (String.mk l).toList = l := rfl
  unfold pyInt?
  rw [htl, digits_strip l h]
  cases l with
  | nil => exact absurd rfl hne
  | cons a t =>
      have hall := h
      simp only [List.all_cons, Bool.and_eq_true] at h
      simp [digit_not_minus a h.1, digit_not_plus a h.1, hall]

/-- Dictionary lookup after assignment: same key reads the new value, any
other key is untouched. -/
theorem Info.get?_set (info : Info) (k k' : String) (v : AttrVal) :
    (info.set k v).get? k' = if k' = k then some v else info.get? k' := by
  by_cases h : k' = k
  · subst h; simp [Info.set, Info.get?, List.find?]
  · have h2 : (decide ((k, v).1 = k')) = false := by
      simp [Ne.symm h]
    simp only [Info.set, Info.get?, List.find?, h2, if_neg h]

theorem Info.getS_set_same (info : Info) (k s d : String) :
    (info.set k (.str s)).getS k d = s := by
  simp [Info.getS, Info.get?_set]

theorem Info.getS_set_ne (info : Info) (k k' : String) (v : AttrVal) (d : String)
    (h : k' ≠ k) : (info.set k v).getS k' d = info.getS k' d := by
  simp [Info.getS, Info.get?_set, h]

theorem Info.getL_set_ne (info : Info) (k k' : String) (v : AttrVal) (d : List String)
    (h : k' ≠ k) : (info.set k v).getL k' d = info.getL k' d := by
  simp [Info.getL, Info.get?_set, h]

theorem Info.getS_of_get?_none (info : Info) (k d : String)
    (h : info.get? k = none) : info.getS k d = d := by
  simp [Info.getS, h]

/-- The file loop of the detector: it reports a series exactly when some
video file name carries a series marker, and otherwise ends with the video
file count. -/
theorem detectScan_eq (files : List String) (c : Nat) :
    detectScan files c =
      if files.any (fun f => isVideoFile f && seriesMarker f) then none
      else some (c + files.countP (fun f => isVideoFile f)) := by
  induction files generalizing c with
  | nil => simp [detectScan]
  | cons f rest ih =>
      by_cases hv : isVideoFile f
      · by_cases hm : seriesMarker f
        · simp [detectScan, hv, hm]
        · have hstep : detectScan (f :: rest) c = detectScan rest (c + 1) := by
            simp [detectScan, hv, hm]
          rw [hstep, ih]
          by_cases ha : rest.any (fun g => isVideoFile g && seriesMarker g)
          · simp [ha, hv, hm]
          · simp only [List.any_cons, hv, hm, Bool.and_false, Bool.false_or, ha,
              if_false, List.countP_cons, Bool.false_eq_true]
            congr 1
            simp only [hv, if_true]
            omega
      · have hstep : detectScan (f :: rest) c = detectScan rest c := by
          simp [detectScan, hv]
        rw [hstep, ih]
        by_cases ha : rest.any (fun g => isVideoFile g && seriesMarker g) <;>
          simp [ha, hv, List.countP_cons]

/-- ContentAnalyzer._detect_content_type returns only the two type tags. -/
theorem detect_two_valued (root : FSEntry) :
    detectContentType root = "serie" ∨ detectContentType root = "film" := by
  unfold detectContentType
  by_cases h1 : seriesMarker root.name
  · simp [h1]
  · by_cases h2 : root.childDirNames.any seriesMarker
    · simp [h1, h2]
    · simp only [h1, h2, if_false, Bool.false_eq_true]
      rcases hscan : detectScan (walkFiles root) 0 with _ | c
      · left; rfl
      · by_cases hc : c > 1 <;> simp [hc]

/-! ## C5: detection priority order -/

/-- C5 (counterexample): a subtree with exactly one video file and a
non-video file named "S01E01.txt".  The claim's stated rule order (series
markers sought in EVERY filename) classifies it Series, but the code scans
only video file names and classifies it Movie. -/
theorem C5_detection_order_counterexample :
    detectContentType markerTextDir = "film" ∧ claimDetect markerTextDir = "serie" := by
  constructor <;> decide

/-- C5 (amended): detection follows the claimed priority cascade with the
third rule scanning only the names of recognized video files: root folder
name, then immediate subdirectory names, then every video file name in the
subtree, then more than one video file implies Series, else Movie. -/
theorem C5_detection_order_amended (root : FSEntry) :
    detectContentType root = amendedDetect root := by
  unfold detectContentType amendedDetect
  by_cases h1 : seriesMarker root.name
  · simp [h1]
  · by_cases h2 : root.childDirNames.any seriesMarker
    · simp [h1, h2]
    · simp only [h1, h2, if_false, Bool.false_eq_true, detectScan_eq]
      by_cases ha : (walkFiles root).any (fun f => isVideoFile f && seriesMarker f)
      · simp [ha]
      · simp only [ha, if_false, Bool.false_eq_true, Nat.zero_add]

/-! ## C2: classification failure on empty content -/

/-- C2: the classification stage aborts (EmptyContentError, realized as the
sys.exit(1) of find_first_video_file) exactly when the subtree holds zero
recognized video files, and with at least one video file it yields the
analyzer's classification result. -/
theorem C2_classify_empty_content (root : FSEntry) (currentYear : Int) :
    (classify root currentYear = none ↔
      (walkFiles root).countP (fun f => isVideoFile f) = 0) ∧
    (0 < (walkFiles root).countP (fun f => isVideoFile f) →
      classify root currentYear = some (mkContentAnalyzer root currentYear)) := by
  rcases hf : (walkFiles root).find? (fun f => isVideoFile f) with _ | v
  · have hall : ∀ f ∈ walkFiles root, ¬ isVideoFile f :=
      fun f hm => by simpa using (List.find?_eq_none.mp hf f hm)
    have hcnt : (walkFiles root).countP (fun f => isVideoFile f) = 0 :=
      List.countP_eq_zero.mpr (fun f hm => by simpa using hall f hm)
    have hcl : classify root currentYear = none := by
      unfold classify findFirstVideoFile
      rw [hf]
    exact ⟨by simp [hcl, hcnt], fun hpos => by omega⟩
  · have hv := List.find?_some hf
    have hmem := List.mem_of_find?_eq_some hf
    have hcnt : 0 < (walkFiles root).countP (fun f => isVideoFile f) :=
      List.countP_pos_iff.mpr ⟨v, hmem, hv⟩
    have hne : (walkFiles root).countP (fun f => isVideoFile f) ≠ 0 := by omega
    have hcl : classify root currentYear = some (mkContentAnalyzer root currentYear) := by
      unfold classify findFirstVideoFile
      rw [hf]
    exact ⟨by simp [hcl, hne], fun _ => hcl⟩

/-- C2 (witness): the demo movie directory holds one video file and
classification succeeds on it. -/
theorem C2_classify_empty_content_witness :
    0 < (walkFiles demoMovieDir).countP (fun f => isVideoFile f) ∧
      classify demoMovieDir 2025 = some (mkContentAnalyzer demoMovieDir 2025) :=
  ⟨by decide, (C2_classify_empty_content demoMovieDir 2025).2 (by decide)⟩

/-! ## C3: movie invariants -/

/-- C3 (counterexample): a movie folder without a year in its name gets the
empty string as year_range, not the claimed "Unknown". -/
theorem C3_movie_year_range_counterexample :
    (mkContentAnalyzer noYearMovieDir 2025).content_type = "film" ∧
    (mkContentAnalyzer noYearMovieDir 2025).year = "" ∧
    (mkContentAnalyzer noYearMovieDir 2025).year_range = "" ∧
    (mkContentAnalyzer noYearMovieDir 2025).year_range ≠ "Unknown" := by
  refine ⟨by decide, by decide, by decide, by decide⟩

/-- C3 (amended): every Movie classification has season_count = episode_count
= 1 and year_range equal to the extracted year string — which is the empty
string, not "Unknown", when no year was extracted from the folder name. -/
theorem C3_movie_invariants_amended (root : FSEntry) (currentYear : Int)
    (h : (mkContentAnalyzer root currentYear).content_type = "film") :
    (mkContentAnalyzer root currentYear).season_count = 1 ∧
    (mkContentAnalyzer root currentYear).episode_count = 1 ∧
    (mkContentAnalyzer root currentYear).year_range = (extractTitleYear root.name).2 ∧
    (mkContentAnalyzer root currentYear).year_range = (mkContentAnalyzer root currentYear).year := by
  by_cases hd : detectContentType root = "serie"
  · have hser : (mkContentAnalyzer root currentYear).content_type = "serie" := by
      simp [mkContentAnalyzer, hd]
    rw [hser] at h
    exact absurd h (by decide)
  · simp [mkContentAnalyzer, hd]

/-- C3 (witness): the demo movie analyzer instantiates the amended claim. -/
theorem C3_movie_invariants_witness :
    (mkContentAnalyzer demoMovieDir 2025).season_count = 1 ∧
    (mkContentAnalyzer demoMovieDir 2025).episode_count = 1 ∧
    (mkContentAnalyzer demoMovieDir 2025).year_range = (extractTitleYear demoMovieDir.name).2 ∧
    (mkContentAnalyzer demoMovieDir 2025).year_range = (mkContentAnalyzer demoMovieDir 2025).year :=
  C3_movie_invariants_amended demoMovieDir 2025 (by decide)

/-! ## C4: series year range -/

theorem digits4_spec (l : List Char) (ys r : List Char)
    (h : digits4 l = some (ys, r)) : ys ≠ [] ∧ ys.all Char.isDigit = true := by
  rcases l with _ | ⟨a, l⟩
  · rw [(by rfl : digits4 [] = none)] at h
    simp at h
  rcases l with _ | ⟨b, l⟩
  · rw [(by rfl : digits4 [a] = none)] at h
    simp at h
  rcases l with _ | ⟨c, l⟩
  · rw [(by rfl : digits4 [a, b] = none)] at h
    simp at h
  rcases l with _ | ⟨d, t⟩
  · rw [(by rfl : digits4 [a, b, c] = none)] at h
    simp at h
  unfold digits4 at h
  dsimp only at h
  by_cases hcond : (a.isDigit && b.isDigit && c.isDigit && d.isDigit) = true
  · rw [if_pos hcond] at h
    simp only [Option.some.injEq, Prod.mk.injEq] at h
    obtain ⟨h1, h2⟩ := h
    subst h1
    simp only [Bool.and_eq_true] at hcond
    exact ⟨by simp, by simp [hcond.1.1.1, hcond.1.1.2, hcond.1.2, hcond.2]⟩
  · rw [if_neg hcond] at h
    simp at h

theorem parenYearAt_digits (l ys : List Char) (h : parenYearAt l = some ys) :
    ys ≠ [] ∧ ys.all Char.isDigit = true := by
  unfold parenYearAt at h
  split at h
  case _ r =>
    rcases h4 : digits4 r with _ | ⟨ds, r2⟩ <;> rw [h4] at h
    · simp at h
    · have hspec := digits4_spec r ds r2 h4
      dsimp only at h
      split at h
      · simp only [Option.some.injEq] at h
        subst h; exact hspec
      · split at h
        · simp only [Option.some.injEq] at h
          subst h; exact hspec
        · simp at h
      · simp at h
  case _ => simp at h

theorem spaceYearAt_digits (l ys : List Char) (h : spaceYearAt l = some ys) :
    ys ≠ [] ∧ ys.all Char.isDigit = true := by
  unfold spaceYearAt at h
  rcases h4 : digits4 l with _ | ⟨ds, r⟩ <;> rw [h4] at h
  · simp at h
  · have hspec := digits4_spec l ds r h4
    dsimp only at h
    split at h
    · simp only [Option.some.injEq] at h
      subst h; exact hspec
    · split at h
      · simp only [Option.some.injEq] at h
        subst h; exact hspec
      · simp at h

theorem extractParenScan_digits :
    ∀ (rest before : List Char) (t y : String),
      extractParenScan before rest = some (t, y) →
      ∃ l, y = String.mk l ∧ l ≠ [] ∧ l.all Char.isDigit = true := by
  intro rest
  induction rest with
  | nil => intro before t y h; exact absurd h (by simp [extractParenScan])
  | cons c r ih =>
      intro before t y h
      rw [extractParenScan] at h
      rcases hp : (if before.isEmpty then none else parenYearAt (c :: r)) with _ | ys
      · rw [hp] at h
        exact ih (before ++ [c]) t y h
      · rw [hp] at h
        simp only [Option.some.injEq, Prod.mk.injEq] at h
        have hpy : parenYearAt (c :: r) = some ys := by
          by_cases hb : before.isEmpty
          · rw [if_pos hb] at hp; exact absurd hp (by simp)
          · rw [if_neg hb] at hp; exact hp
        obtain ⟨hne, hdig⟩ := parenYearAt_digits _ _ hpy
        exact ⟨ys, h.2.symm, hne, hdig⟩

theorem extractSpaceYearScan_digits :
    ∀ (rest before : List Char) (t y : String),
      extractSpaceYearScan before rest = some (t, y) →
      ∃ l, y = String.mk l ∧ l ≠ [] ∧ l.all Char.isDigit = true := by
  intro rest
  induction rest with
  | nil => intro before t y h; exact absurd h (by simp [extractSpaceYearScan])
  | cons c r ih =>
      intro before t y h
      rw [extractSpaceYearScan] at h
      rcases hp : (if before.length ≥ 2 && (before.getLast?.map pyWs).getD false then
          spaceYearAt (c :: r) else none) with _ | ys
      · rw [hp] at h
        exact ih (before ++ [c]) t y h
      · rw [hp] at h
        simp only [Option.some.injEq, Prod.mk.injEq] at h
        have hpy : spaceYearAt (c :: r) = some ys := by
          by_cases hb : (before.length ≥ 2 && (before.getLast?.map pyWs).getD false) = true
          · rw [if_pos hb] at hp; exact hp
          · rw [if_neg hb] at hp; exact absurd hp (by simp)
        obtain ⟨hne, hdig⟩ := spaceYearAt_digits _ _ hpy
        exact ⟨ys, h.2.symm, hne, hdig⟩

/-- The extracted year is either empty or a nonempty all-digit string. -/
theorem extractTitleYear_digits (name : String) :
    (extractTitleYear name).2 = "" ∨
      ∃ l, (extractTitleYear name).2 = String.mk l ∧ l ≠ [] ∧
        l.all Char.isDigit = true := by
  unfold extractTitleYear
  rcases h1 : extractParenScan [] name.toList with _ | ⟨t, y⟩
  · rcases h2 : extractSpaceYearScan [] name.toList with _ | ⟨t2, y2⟩
    · simp
    · right
      exact extractSpaceYearScan_digits name.toList [] t2 y2 h2
  · right
    exact extractParenScan_digits name.toList [] t y h1

/-- C4 (counterexample): the series folder "Show (2999) Saison 2" at current
year 2025 yields year_range "2999-2025": the end is capped below the start,
so the claimed start ≤ end ≤ current-year shape fails. -/
theorem C4_series_year_range_counterexample :
    (mkContentAnalyzer futureYearSeriesDir 2025).content_type = "serie" ∧
    (mkContentAnalyzer futureYearSeriesDir 2025).year = "2999" ∧
    (mkContentAnalyzer futureYearSeriesDir 2025).year_range = "2999-2025" ∧
    ¬ ((2999 : Int) ≤ 2025) := by
  refine ⟨by decide, by decide, by decide, by decide⟩

/-- C4 (amended): for every Series classification, year_range is "Unknown"
or "<start>-<end>" with start the parsed extracted year, end ≤ the current
calendar year, and start ≤ end whenever start ≤ the current year (a start
year beyond the current year is capped to an end below it). -/
theorem C4_series_year_range_amended (root : FSEntry) (currentYear : Int)
    (h : (mkContentAnalyzer root currentYear).content_type = "serie") :
    (mkContentAnalyzer root currentYear).year_range = "Unknown" ∨
    ∃ s e : Int, pyInt? (mkContentAnalyzer root currentYear).year = some s ∧
      (mkContentAnalyzer root currentYear).year_range = toString s ++ "-" ++ toString e ∧
      e ≤ currentYear ∧ (s ≤ currentYear → s ≤ e) := by
  by_cases hd : detectContentType root = "serie"
  case neg =>
    have hfil : (mkContentAnalyzer root currentYear).content_type = detectContentType root := by
      simp [mkContentAnalyzer, hd]
    rw [hfil] at h
    exact absurd h hd
  case pos =>
  have hy : (mkContentAnalyzer root currentYear).year = (extractTitleYear root.name).2 := by
    simp [mkContentAnalyzer, hd]
  have hyr : (mkContentAnalyzer root currentYear).year_range =
      determineYearRange (extractTitleYear root.name).2 (countSeasons root) currentYear := by
    simp [mkContentAnalyzer, hd]
  rw [hy, hyr]
  rcases extractTitleYear_digits root.name with hempty | ⟨l, hl, hne, hdig⟩
  · left
    rw [hempty]
    simp [determineYearRange]
  · right
    have hparse : pyInt? (extractTitleYear root.name).2 = some ((digitsToNat l : Int)) := by
      rw [hl]; exact pyInt_digits l hne hdig
    have hnotempty : ¬ ((extractTitleYear root.name).2 = "") := by
      rw [hl]
      intro hcontra
      apply hne
      have : (String.mk l).data = ("" : String).data := by rw [hcontra]
      simpa using this
    refine ⟨(digitsToNat l : Int),
      min ((digitsToNat l : Int) + ((max 1 (countSeasons root / 2) : Nat) : Int)) currentYear,
      hparse, ?_, ?_, ?_⟩
    · unfold determineYearRange
      rw [if_neg hnotempty, hparse]
    · exact min_le_right _ _
    · intro hs
      refine le_min ?_ hs
      have : (0 : Int) ≤ ((max 1 (countSeasons root / 2) : Nat) : Int) := Int.natCast_nonneg _
      omega

/-- C4 (witness): the demo series analyzer instantiates the amended claim. -/
theorem C4_series_year_range_witness :
    (mkContentAnalyzer demoSeriesDir 2025).year_range = "Unknown" ∨
    ∃ s e : Int, pyInt? (mkContentAnalyzer demoSeriesDir 2025).year = some s ∧
      (mkContentAnalyzer demoSeriesDir 2025).year_range = toString s ++ "-" ++ toString e ∧
      e ≤ 2025 ∧ (s ≤ 2025 → s ≤ e) :=
  C4_series_year_range_amended demoSeriesDir 2025 (by decide)

/-! ## C6: season counting -/

/-- The season-folder loop counts exactly the immediate subdirectories whose
names carry a season marker. -/
theorem countSeasonFoldersLoop_eq (names : List String) :
    countSeasonFoldersLoop names = (names.filter (fun n => seasonMarker n)).length := by
  induction names with
  | nil => rfl
  | cons n rest ih =>
      by_cases h : seasonMarker n
      · simp [countSeasonFoldersLoop, h, ih, List.filter_cons]
        omega
      · simp [countSeasonFoldersLoop, h, ih, List.filter_cons]

/-- Season numbers found by the fallback loop: exactly the accumulator plus
the numbers parsed from video file names. -/
theorem collectSeasonNumbers_mem (files : List String) :
    ∀ (acc : List Nat) (n : Nat),
      n ∈ collectSeasonNumbers files acc ↔
        n ∈ acc ∨ n ∈ files.filterMap
          (fun f => if isVideoFile f then sdeSeason? f else none) := by
  induction files with
  | nil => intro acc n; simp [collectSeasonNumbers]
  | cons f rest ih =>
      intro acc n
      by_cases hv : isVideoFile f
      · rcases hs : sdeSeason? f with _ | m
        · rw [show collectSeasonNumbers (f :: rest) acc = collectSeasonNumbers rest acc by
            simp [collectSeasonNumbers, hv, hs]]
          rw [ih]
          simp [List.filterMap_cons, hv, hs]
        · by_cases hmem : m ∈ acc
          · rw [show collectSeasonNumbers (f :: rest) acc = collectSeasonNumbers rest acc by
              simp [collectSeasonNumbers, hv, hs, hmem]]
            rw [ih]
            simp only [List.filterMap_cons, hv, if_true, hs, List.mem_cons]
            constructor
            · rintro (h1 | h1)
              · exact Or.inl h1
              · exact Or.inr (Or.inr h1)
            · rintro (h1 | h1 | h1)
              · exact Or.inl h1
              · exact Or.inl (h1 ▸ hmem)
              · exact Or.inr h1
          · rw [show collectSeasonNumbers (f :: rest) acc =
                collectSeasonNumbers rest (acc.concat m) by
              simp [collectSeasonNumbers, hv, hs, hmem]]
            rw [ih]
            simp only [List.concat_eq_append, List.mem_append, List.mem_singleton,
              List.filterMap_cons, hv, if_true, hs, List.mem_cons]
            tauto
      · rw [show collectSeasonNumbers (f :: rest) acc = collectSeasonNumbers rest acc by
          simp [collectSeasonNumbers, hv]]
        rw [ih]
        simp [List.filterMap_cons, hv]

/-- The fallback loop keeps its accumulator duplicate-free. -/
theorem collectSeasonNumbers_nodup (files : List String) :
    ∀ acc : List Nat, acc.Nodup → (collectSeasonNumbers files acc).Nodup := by
  induction files with
  | nil => intro acc h; simpa [collectSeasonNumbers] using h
  | cons f rest ih =>
      intro acc hacc
      by_cases hv : isVideoFile f
      · rcases hs : sdeSeason? f with _ | m
        · rw [show collectSeasonNumbers (f :: rest) acc = collectSeasonNumbers rest acc by
            simp [collectSeasonNumbers, hv, hs]]
          exact ih acc hacc
        · by_cases hmem : m ∈ acc
          · rw [show collectSeasonNumbers (f :: rest) acc = collectSeasonNumbers rest acc by
              simp [collectSeasonNumbers, hv, hs, hmem]]
            exact ih acc hacc
          · rw [show collectSeasonNumbers (f :: rest) acc =
                collectSeasonNumbers rest (acc.concat m) by
              simp [collectSeasonNumbers, hv, hs, hmem]]
            refine ih (acc.concat m) ?_
            simp [List.concat_eq_append, List.nodup_append, hacc, hmem]
      · rw [show collectSeasonNumbers (f :: rest) acc = collectSeasonNumbers rest acc by
          simp [collectSeasonNumbers, hv]]
        exact ih acc hacc

/-- The fallback loop computes the number of distinct season numbers parsed
from the video file names. -/
theorem collectSeasonNumbers_card (files : List String) :
    (collectSeasonNumbers files []).length =
      (files.filterMap (fun f => if isVideoFile f then sdeSeason? f else none)).toFinset.card := by
  have hnd : (collectSeasonNumbers files []).Nodup :=
    collectSeasonNumbers_nodup files [] List.nodup_nil
  have hfin : (collectSeasonNumbers files []).toFinset =
      (files.filterMap (fun f => if isVideoFile f then sdeSeason? f else none)).toFinset := by
    apply Finset.ext
    intro n
    simp only [List.mem_toFinset]
    rw [collectSeasonNumbers_mem files [] n]
    simp
  calc (collectSeasonNumbers files []).length
      = (collectSeasonNumbers files []).dedup.length := by rw [hnd.dedup]
    _ = (collectSeasonNumbers files []).toFinset.card := (List.card_toFinset _).symm
    _ = _ := by rw [hfin]

/-- Filtering video files first and then parsing is the single filterMap the
loop performs. -/
theorem filter_filterMap_seasons (files : List String) :
    ((files.filter (fun f => isVideoFile f)).filterMap sdeSeason?) =
      files.filterMap (fun f => if isVideoFile f then sdeSeason? f else none) := by
  induction files with
  | nil => rfl
  | cons f rest ih =>
      by_cases hv : isVideoFile f <;>
        simp [List.filter_cons, List.filterMap_cons, hv, ih]

/-- C6: for Series, season_count is the number of season-marker
subdirectories (floored at 1), falling back — only when that number is
zero — to the number of distinct S<NN>E season numbers in video file names
(floored at 1); with at least two marker subdirectories it equals their
count outright. -/
theorem C6_season_count (root : FSEntry) (currentYear : Int)
    (h : (mkContentAnalyzer root currentYear).content_type = "serie") :
    ((mkContentAnalyzer root currentYear).season_count =
      if (root.childDirNames.filter (fun n => seasonMarker n)).length = 0 then
        max 1 (((walkFiles root).filter (fun f => isVideoFile f)).filterMap
          sdeSeason?).toFinset.card
      else max 1 (root.childDirNames.filter (fun n => seasonMarker n)).length) ∧
    (2 ≤ (root.childDirNames.filter (fun n => seasonMarker n)).length →
      (mkContentAnalyzer root currentYear).season_count =
        (root.childDirNames.filter (fun n => seasonMarker n)).length) := by
  have hd : detectContentType root = "serie" := by
    by_cases hd : detectContentType root = "serie"
    · exact hd
    · have : (mkContentAnalyzer root currentYear).content_type = detectContentType root := by
        simp [mkContentAnalyzer, hd]
      rw [this] at h
      exact absurd h hd
  have hsc : (mkContentAnalyzer root currentYear).season_count = countSeasons root := by
    simp [mkContentAnalyzer, hd]
  have hcs : countSeasons root =
      if (root.childDirNames.filter (fun n => seasonMarker n)).length = 0 then
        max 1 (((walkFiles root).filter (fun f => isVideoFile f)).filterMap
          sdeSeason?).toFinset.card
      else max 1 (root.childDirNames.filter (fun n => seasonMarker n)).length := by
    unfold countSeasons
    rw [countSeasonFoldersLoop_eq, filter_filterMap_seasons, collectSeasonNumbers_card]
    by_cases hz : (root.childDirNames.filter (fun n => seasonMarker n)).length = 0 <;>
      simp [hz]
  refine ⟨hsc.trans hcs, fun h2 => ?_⟩
  rw [hsc, hcs, if_neg (by omega)]
  omega

/-- C6 (witness): the demo series directory has two season-marker
subdirectories, and its season_count equals that count. -/
theorem C6_season_count_witness :
    2 ≤ (demoSeriesDir.childDirNames.filter (fun n => seasonMarker n)).length ∧
    (mkContentAnalyzer demoSeriesDir 2025).season_count =
      (demoSeriesDir.childDirNames.filter (fun n => seasonMarker n)).length :=
  ⟨by decide, (C6_season_count demoSeriesDir 2025 (by decide)).2 (by decide)⟩

/-! ## C7: language tag derivation -/

/-- C7: in the language-tag post-pass, more than one distinct collected
audio language yields MULTI; exactly one distinct language goes through the
code table, falling back to its uppercase form when unmapped. -/
theorem C7_language_tag (info : Info) (langs : List String)
    (h : info.get? "audio_languages" = some (.list langs)) :
    (1 < langs.dedup.length →
      ∃ out, processLanguageTag info = some out ∧
        out.get? "language_tag" = some (.str "MULTI")) ∧
    (∀ l, langs.dedup = [l] →
      ∃ out, processLanguageTag info = some out ∧
        out.get? "language_tag" = some (.str
          (((languageMap.find? (fun p => p.1 = l)).map (fun p => p.2)).getD
            (strUpper l)))) := by
  constructor
  · intro hlen
    refine ⟨info.set "language_tag" (.str "MULTI"), ?_, ?_⟩
    · unfold processLanguageTag
      rw [h]
      dsimp only
      rw [if_pos (by omega)]
    · rw [Info.get?_set]
      simp
  · intro l hl
    refine ⟨info.set "language_tag" (.str
      (((languageMap.find? (fun p => p.1 = l)).map (fun p => p.2)).getD
        (strUpper l))), ?_, ?_⟩
    · unfold processLanguageTag
      rw [h]
      dsimp only
      rw [hl]
      rw [if_neg (by simp)]
    · rw [Info.get?_set]
      simp

/-- C7 (witness): two distinct audio languages give MULTI; a French-only
track list gives FRENCH through the code table. -/
theorem C7_language_tag_witness :
    (∃ out, processLanguageTag multiLangInfo = some out ∧
      out.get? "language_tag" = some (.str "MULTI")) ∧
    (∃ out, processLanguageTag singleLangInfo = some out ∧
      out.get? "language_tag" = some (.str "FRENCH")) := by
  constructor
  · exact (C7_language_tag multiLangInfo ["fr", "en"] (by decide)).1 (by decide)
  · have h := (C7_language_tag singleLangInfo ["French", "French"] (by decide)).2
      "French" (by decide)
    have he : ((languageMap.find? (fun p => p.1 = "French")).map
        (fun p => p.2)).getD (strUpper "French") = "FRENCH" := by decide
    rwa [he] at h

/-! ## C8: source keyword scan -/

/-- C8 (counterexample): a General track carrying its embedded name only
under the capitalized probe key 'Movie_name' gets NO source binding at all —
neither a keyword match nor the claimed "Unknown" — because the scan is
guarded by the lowercase key 'movie_name'. -/
theorem C8_source_keyword_counterexample :
    extractMetadata [capitalNameTrack] = some capitalNameInfo ∧
    capitalNameInfo.get? "movie_name" = some (.str "WEBRip 1080p") ∧
    capitalNameInfo.get? "source" = none ∧
    capitalNameInfo.get? "source" ≠ some (.str "Unknown") := by
  refine ⟨by decide, by decide, by decide, by decide⟩

/-- C8 (amended): when the lowercase track key 'movie_name' is present the
normalizer sets source to the first priority-list keyword occurring
case-insensitively in it, else to "Unknown"; when that key is absent the
source binding is left untouched (absent for a fresh map). -/
theorem C8_source_keyword_amended (t : Track) (info : Info) :
    (∀ mn, t.get? "movie_name" = some mn →
      (processGeneralTrack t info).get? "source" =
        some (.str ((sourceKeywords.find? (fun s => containsKeyword mn s)).getD
          "Unknown"))) ∧
    (t.get? "movie_name" = none →
      (processGeneralTrack t info).get? "source" = info.get? "source") := by
  constructor
  · intro mn hmn
    unfold processGeneralTrack
    rw [hmn]
    dsimp only
    rcases hf : sourceKeywords.find? (fun s => containsKeyword mn s) with _ | s <;>
      simp [Info.get?_set]
  · intro hmn
    unfold processGeneralTrack
    rw [hmn]
    dsimp only
    simp [Info.get?_set]

/-- C8 (witness): with the lowercase embedded-name key present, "WEBRip
1080p" sets source WEBRip; a track with no fields leaves source unset. -/
theorem C8_source_keyword_witness :
    (processGeneralTrack ⟨"General", [("movie_name", "WEBRip 1080p")]⟩ []).get? "source" =
      some (.str "WEBRip") ∧
    (processGeneralTrack bareGeneralTrack []).get? "source" = none := by
  constructor
  · have h := (C8_source_keyword_amended ⟨"General", [("movie_name", "WEBRip 1080p")]⟩
      []).1 "WEBRip 1080p" (by decide)
    have he : ((sourceKeywords.find? (fun s => containsKeyword "WEBRip 1080p" s)).getD
        "Unknown") = "WEBRip" := by decide
    rwa [he] at h
  · have h := (C8_source_keyword_amended bareGeneralTrack []).2 (by decide)
    exact h.trans (by decide)

/-! ## C1: normalizer leniency -/

theorem Info.get?_push_ne (info : Info) (k k' x : String) (h : k' ≠ k) :
    (info.push k x).get? k' = info.get? k' := by
  unfold Info.push
  rcases hv : info.get? k with _ | v
  · simp [Info.get?_set, h]
  · rcases v with s | l <;> simp [Info.get?_set, h]

theorem Info.get?_push_same (info : Info) (k x : String) :
    ∃ l, (info.push k x).get? k = some (.list l) ∧ l ≠ [] := by
  unfold Info.push
  rcases hv : info.get? k with _ | v
  · exact ⟨[x], by simp [Info.get?_set], by simp⟩
  · rcases v with s | l
    · exact ⟨[x], by simp [Info.get?_set], by simp⟩
    · exact ⟨l ++ [x], by simp [Info.get?_set], by simp⟩

/-- The General processor never touches the audio_languages binding. -/
theorem processGeneralTrack_audio (t : Track) (info : Info) :
    (processGeneralTrack t info).get? "audio_languages" = info.get? "audio_languages" := by
  unfold processGeneralTrack
  rcases hmn : t.get? "movie_name" with _ | mn
  · simp [Info.get?_set]
  · dsimp only
    split <;> simp [Info.get?_set]

/-- The Video processor succeeds whenever present dimensions parse, and
never touches the audio_languages binding. -/
theorem processVideoTrack_spec (t : Track) (info : Info)
    (hwf : ∀ w h0, t.get? "Width" = some w → t.get? "Height" = some h0 →
      (pyInt? w).isSome ∧ (pyInt? h0).isSome) :
    ∃ out, processVideoTrack t info = some out ∧
      out.get? "audio_languages" = info.get? "audio_languages" := by
  unfold processVideoTrack
  rcases hw : t.get? "Width" with _ | w
  · dsimp only
    refine ⟨_, rfl, ?_⟩
    split <;> (try split) <;> (try split) <;> simp [Info.get?_set]
  · rcases hh : t.get? "Height" with _ | h0
    · dsimp only
      refine ⟨_, rfl, ?_⟩
      split <;> (try split) <;> (try split) <;> simp [Info.get?_set]
    · obtain ⟨hpw, hph⟩ := hwf w h0 hw hh
      obtain ⟨wi, hwi⟩ := Option.isSome_iff_exists.mp hpw
      obtain ⟨hi, hhi⟩ := Option.isSome_iff_exists.mp hph
      dsimp only
      rw [hwi, hhi]
      dsimp only
      refine ⟨_, rfl, ?_⟩
      split <;> (try split) <;> (try split) <;> (try split) <;> (try split) <;>
        (try split) <;> simp [Info.get?_set]

/-- The Audio processor always leaves a nonempty audio-language list. -/
theorem processAudioTrack_audio (t : Track) (info : Info) :
    ∃ l, (processAudioTrack t info).get? "audio_languages" = some (.list l) ∧
      l ≠ [] := by
  unfold processAudioTrack
  rw [Info.get?_push_ne _ "audio_codecs" "audio_languages" _ (by decide)]
  rcases t.get? "Language" with _ | lang
  · exact Info.get?_push_same _ _ _
  · exact Info.get?_push_same _ _ _

/-- The Text processor never touches the audio_languages binding. -/
theorem processTextTrack_audio (t : Track) (info : Info) :
    (processTextTrack t info).get? "audio_languages" = info.get? "audio_languages" := by
  unfold processTextTrack
  rw [Info.get?_push_ne _ "subtitle_formats" "audio_languages" _ (by decide)]
  rcases t.get? "Language" with _ | lang <;>
    · rw [Info.get?_push_ne _ "subtitle_languages" "audio_languages" _ (by decide)]
      by_cases hs : (info.get? "subtitle_languages").isSome <;> simp [hs, Info.get?_set]

/-- The language-tag post-pass succeeds on every map satisfying the loop
invariant (the only raise, list(set)[0] on an empty set, is unreachable). -/
theorem processLanguageTag_some (info : Info) (hinv : audioInv info) :
    ∃ out, processLanguageTag info = some out := by
  unfold processLanguageTag
  rcases hal : info.get? "audio_languages" with _ | v
  · exact ⟨info, rfl⟩
  · rcases v with s | langs
    · exact ⟨info, rfl⟩
    · dsimp only
      by_cases hlen : langs.dedup.length > 1
      · rw [if_pos hlen]
        exact ⟨_, rfl⟩
      · rw [if_neg hlen]
        rcases hdd : langs.dedup with _ | ⟨a, r⟩
        · exact absurd ((List.dedup_eq_nil langs).mp hdd) (hinv langs hal)
        · exact ⟨_, rfl⟩

/-- The track fold of the normalizer never fails on well-formed dimensions
and maintains the audio invariant. -/
theorem foldlM_processTrack_some (tracks : List Track) :
    ∀ info : Info, audioInv info → videoDimsParse tracks →
      ∃ out, tracks.foldlM processTrack info = some out ∧ audioInv out := by
  induction tracks with
  | nil => intro info hinv _; exact ⟨info, rfl, hinv⟩
  | cons t rest ih =>
      intro info hinv hwf
      have hwf_head := hwf t (List.mem_cons_self t rest)
      have hwf_rest : videoDimsParse rest := fun u hu => hwf u (List.mem_cons_of_mem t hu)
      obtain ⟨mid, hmid, hinvmid⟩ : ∃ mid, processTrack info t = some mid ∧ audioInv mid := by
        unfold processTrack
        by_cases hG : t.type = "General"
        · rw [if_pos hG]
          refine ⟨_, rfl, fun l hl => ?_⟩
          rw [processGeneralTrack_audio] at hl
          exact hinv l hl
        · rw [if_neg hG]
          by_cases hV : t.type = "Video"
          · rw [if_pos hV]
            have hpv : ∀ w h0, t.get? "Width" = some w → t.get? "Height" = some h0 →
                (pyInt? w).isSome ∧ (pyInt? h0).isSome := by
              intro w h0 hww hhh
              have hres := hwf_head hV ⟨by simp [hww], by simp [hhh]⟩
              rw [hww, hhh] at hres
              simpa using hres
            obtain ⟨out, hout, houtau⟩ := processVideoTrack_spec t info hpv
            refine ⟨out, hout, fun l hl => ?_⟩
            rw [houtau] at hl
            exact hinv l hl
          · rw [if_neg hV]
            by_cases hA : t.type = "Audio"
            · rw [if_pos hA]
              refine ⟨_, rfl, fun l hl => ?_⟩
              obtain ⟨l2, hl2, hne⟩ := processAudioTrack_audio t info
              rw [hl2] at hl
              simp only [Option.some.injEq, AttrVal.list.injEq] at hl
              subst hl
              exact hne
            · rw [if_neg hA]
              by_cases hT : t.type = "Text"
              · rw [if_pos hT]
                refine ⟨_, rfl, fun l hl => ?_⟩
                rw [processTextTrack_audio] at hl
                exact hinv l hl
              · rw [if_neg hT]
                exact ⟨info, rfl, hinv⟩
      obtain ⟨out, hout, hinvout⟩ := ih mid hinvmid hwf_rest
      refine ⟨out, ?_, hinvout⟩
      rw [List.foldlM_cons, hmid]
      simpa using hout

/-- C1 (counterexample): normalizing the empty track sequence yields the
empty attribute map — scalar keys such as format are absent, not bound to
"Unknown", and list keys are absent, not bound to empty sequences. -/
theorem C1_empty_tracks_counterexample :
    extractMetadata [] = some [] ∧
    Info.get? [] "format" = none ∧
    Info.get? [] "format" ≠ some (.str "Unknown") ∧
    Info.get? [] "audio_languages" = none := by
  refine ⟨by decide, by decide, by decide, by decide⟩

/-- C1 (amended): the normalizer returns a map without raising for every
track sequence whose present Video dimensions parse as integers; the empty
sequence gives the empty map (absent keys, with downstream readers
supplying defaults at lookup time); a fieldless General track shows the
per-field defaults: format, duration and overall_bitrate degrade to
"Unknown", movie_name to "", while source is left absent. -/
theorem C1_normalize_leniency_amended :
    extractMetadata [] = some [] ∧
    (∀ tracks : List Track, videoDimsParse tracks → (extractMetadata tracks).isSome) ∧
    (processGeneralTrack bareGeneralTrack []).get? "format" = some (.str "Unknown") ∧
    (processGeneralTrack bareGeneralTrack []).get? "duration" = some (.str "Unknown") ∧
    (processGeneralTrack bareGeneralTrack []).get? "overall_bitrate" =
      some (.str "Unknown") ∧
    (processGeneralTrack bareGeneralTrack []).get? "movie_name" = some (.str "") ∧
    (processGeneralTrack bareGeneralTrack []).get? "source" = none := by
  refine ⟨by decide, ?_, by decide, by decide, by decide, by decide, by decide⟩
  intro tracks hwf
  have hinv0 : audioInv ([] : Info) := by
    intro l hl
    simp [Info.get?] at hl
  obtain ⟨mid, hmid, hinvmid⟩ := foldlM_processTrack_some tracks [] hinv0 hwf
  obtain ⟨out, hout⟩ := processLanguageTag_some mid hinvmid
  unfold extractMetadata
  rw [hmid]
  simp [hout]

/-! ## C9: title format -/

/-- C9: the generated torrent title is exactly the dash-joined sequence of
"<title> (<year_range>)", "Intégrale", language tag, source, resolution and
the codec's first space-delimited token for a series, and the same without
"Intégrale" and with the year in place of the year range for a movie. -/
theorem C9_title_format (info : Info) (a : ContentAnalyzer) :
    generateTorrentTitle info a = specTorrentTitle info a := by
  unfold generateTorrentTitle specTorrentTitle
  by_cases h : a.content_type = "serie" <;>
    · apply String.ext
      simp [h, String.intercalate, String.intercalate.go, String.data_append,
        List.append_assoc]

/-! ## C10: missing-field defaults in rendering -/

set_option maxRecDepth 8000 in
/-- C10 (counterexample): the series report does NOT uniformly substitute
"Unknown" for a missing language_tag — its closing sentence uses the empty
string — and the series markup embeds the title's empty-string defaults, so
neither renders a missing-key map like the "Unknown"-filled map. -/
theorem C10_default_disagreement_counterexample :
    generateSerieNfo [] demoSeriesAnalyzer ≠
      generateSerieNfo [("language_tag", .str "Unknown")] demoSeriesAnalyzer ∧
    generateSerieBbcode [] demoSeriesAnalyzer ≠
      generateSerieBbcode [("language_tag", .str "Unknown")] demoSeriesAnalyzer := by
  refine ⟨by decide, by decide⟩

/-- C10 (amended): with any of language_tag, source, resolution, video_codec
absent, the title substitutes the empty string for each (all four absent
gives "<title> (<year>) -  -  -  - ", with "- Intégrale" inserted for a
series); the film report renders exactly as if all four keys were bound to
"Unknown"; the series report renders exactly as if source, resolution and
video_codec were bound to "Unknown" — but not language_tag, whose closing
sentence falls back to the empty string (and the markup documents embed the
title's empty-string defaults verbatim). -/
theorem C10_default_disagreement_amended (info : Info) (a : ContentAnalyzer)
    (h1 : info.get? "language_tag" = none) (h2 : info.get? "source" = none)
    (h3 : info.get? "resolution" = none) (h4 : info.get? "video_codec" = none) :
    (generateTorrentTitle info a =
      if a.content_type = "serie" then
        a.title ++ " (" ++ a.year_range ++ ") - Intégrale -  -  -  - "
      else a.title ++ " (" ++ a.year ++ ") -  -  -  - ") ∧
    generateFilmNfo info a =
      generateFilmNfo ((((info.set "language_tag" (.str "Unknown")).set "source"
        (.str "Unknown")).set "resolution" (.str "Unknown")).set "video_codec"
        (.str "Unknown")) a ∧
    generateSerieNfo info a =
      generateSerieNfo (((info.set "source" (.str "Unknown")).set "resolution"
        (.str "Unknown")).set "video_codec" (.str "Unknown")) a := by
  refine ⟨?_, ?_, ?_⟩
  · unfold generateTorrentTitle
    by_cases h : a.content_type = "serie" <;>
      · apply String.ext
        simp [h, Info.getS, h1, h2, h3, h4, splitSpaceHead, String.data_append]
  · unfold generateFilmNfo
    simp only [bitrateStr, durationStr, Info.getS, Info.getL, Info.get?_set,
      h1, h2, h3, h4]
    simp
  · unfold generateSerieNfo
    simp only [bitrateStr, durationStr, Info.getS, Info.getL, Info.get?_set,
      h1, h2, h3, h4]
    simp

/-- C10 (witness): the amended claim instantiated at the empty attribute map
and the demo movie analyzer. -/
theorem C10_default_disagreement_witness :
    (generateTorrentTitle [] demoMovieAnalyzer =
      if demoMovieAnalyzer.content_type = "serie" then
        demoMovieAnalyzer.title ++ " (" ++ demoMovieAnalyzer.year_range ++
          ") - Intégrale -  -  -  - "
      else demoMovieAnalyzer.title ++ " (" ++ demoMovieAnalyzer.year ++ ") -  -  -  - ") ∧
    generateFilmNfo [] demoMovieAnalyzer =
      generateFilmNfo (Info.set (Info.set (Info.set (Info.set [] "language_tag"
        (.str "Unknown")) "source" (.str "Unknown")) "resolution" (.str "Unknown"))
        "video_codec" (.str "Unknown")) demoMovieAnalyzer ∧
    generateSerieNfo [] demoMovieAnalyzer =
      generateSerieNfo (Info.set (Info.set (Info.set [] "source" (.str "Unknown"))
        "resolution" (.str "Unknown")) "video_codec" (.str "Unknown"))
        demoMovieAnalyzer :=
  C10_default_disagreement_amended [] demoMovieAnalyzer rfl rfl rfl rfl

/-- C1 (witness): the demo probe output normalizes successfully. -/
theorem C1_normalize_leniency_witness : (extractMetadata demoTracks).isSome :=
  C1_normalize_leniency_amended.2.1 demoTracks (by
    intro t ht hV hWH
    simp only [demoTracks, List.mem_cons, List.not_mem_nil, or_false] at ht
    rcases ht with rfl | rfl | rfl | rfl <;>
      first
        | exact absurd hV (by decide)
        | exact ⟨by decide, by decide⟩)

end TorrentMate
